import Mathlib

/-!
Verification of the Google DNS synchronization adapter
(`octodns/provider/googledns.py`, class `GoogleProvider`).

The Python source is shallowly embedded below.  Wire-level resource record
sets, the neutral record model, the outbound content fragments, the adapter's
two in-process caches (`self._zones`, `self._zone_records`) and the remote
API are all represented by explicit Lean data.  Remote interaction is
modelled as a pure `Remote` value (the pages the service would return) plus
an explicit trace of issued API calls, so that "issues a fresh remote fetch"
and "issues one write request per fragment" are provable statements.

Python conventions that have to be made explicit:
* `dict` is modelled as an insertion-ordered association list with unique
  keys (`Dict`); `pop` is modelled by removing the key's entries.
* the value `False` stored for a zone id (and the `.get(name, False)`
  default) is modelled as `none : Option String`; Python truthiness of a
  zone id is `truthy` (an id is falsy when it is `False` or the empty
  string).
* a raised `AttributeError` / `KeyError` is modelled by `Except.error`.
-/

set_option linter.unusedVariables false

/-- One wire-level resource record set as returned by the remote service
(`{name, type, ttl, rrdatas, priority}`). -/
structure WireRecord where
  name : String
  type : String
  ttl : Nat
  rrdatas : List String
  priority : Nat := 0
deriving DecidableEq, Repr

/-- An MX value of the neutral model (`value.preference` / `value.exchange`). -/
structure MxValue where
  preference : Nat
  exchange : String
deriving DecidableEq, Repr

/-- The payload of a neutral record: `values` for multi-value types,
`value` for CNAME, `{preference, exchange}` pairs for MX. -/
inductive RData where
  | values (vs : List String)
  | value (v : String)
  | mxValues (vs : List MxValue)
deriving DecidableEq, Repr

/-- The `data` dict handed to `Record.new` by `populate`. -/
structure NeutralData where
  ttl : Nat
  type : String
  data : RData
deriving DecidableEq, Repr

/-- A neutral record as consumed by the outbound translators and the change
applier (`record.zone.name`, `record.fqdn`, `record._type`, `record.ttl`,
and its values). -/
structure NeutralRecord where
  zoneName : String
  fqdn : String
  rtype : String
  ttl : Nat
  rdata : RData
deriving DecidableEq, Repr

/-- Models `record.values` for multi-value records (list of strings). -/
def NeutralRecord.values (r : NeutralRecord) : List String :=
  match r.rdata with
  | .values vs => vs
  | _ => []

/-- Models `record.value` for singleton records (CNAME). -/
def NeutralRecord.value (r : NeutralRecord) : String :=
  match r.rdata with
  | .value v => v
  | _ => ""

/-- Models `record.values` for MX records. -/
def NeutralRecord.mxValues (r : NeutralRecord) : List MxValue :=
  match r.rdata with
  | .mxValues vs => vs
  | _ => []

/-- One outbound content fragment (a partial dict; keys that a given
translator does not set are `none`). -/
structure Fragment where
  content : Option String := none
  rrdatas : Option (List String) := none
  priority : Option Nat := none
deriving DecidableEq, Repr

/-- Models `SUPPORTS` (line 28): the closed set of supported record types. -/
def SUPPORTS : List String :=
  ["A", "AAAA", "CAA", "CNAME", "MX", "NAPTR", "NS", "PTR", "SPF", "SRV", "TXT"]

/-- Models `MIN_TTL` (line 30). -/
def MIN_TTL : Nat := 60

/- ------------------------------------------------------------------ -/
/- TXT escaping: `str.replace(';', '\;')` and `str.replace('\;', ';')`.
   Python `replace` substitutes all occurrences, scanning left to right,
   non-overlapping; for the single-character pattern `;` this is a
   character-wise map, for the two-character pattern `\;` it is the
   explicit recursion below. -/

/-- Models `raw.replace(';', '\;')` on the character list. -/
def escapeSemisL : List Char → List Char
  | [] => []
  | c :: rest => if c = ';' then '\\' :: ';' :: escapeSemisL rest else c :: escapeSemisL rest

/-- Models `value.replace('\;', ';')` on the character list (leftmost,
non-overlapping). -/
def unescapeSemisL : List Char → List Char
  | [] => []
  | [c] => [c]
  | c1 :: c2 :: rest =>
    if c1 = '\\' ∧ c2 = ';' then ';' :: unescapeSemisL rest
    else c1 :: unescapeSemisL (c2 :: rest)

/-- Models `s.replace(';', '\;')`. -/
def escapeSemis (s : String) : String := ⟨escapeSemisL s.data⟩

/-- Models `s.replace('\;', ';')`. -/
def unescapeSemis (s : String) : String := ⟨unescapeSemisL s.data⟩

/- ------------------------------------------------------------------ -/
/- Inbound translators `_data_for_*` (lines 89-147).  Each receives the
   group of wire entries sharing (name, type); `records[0]` is modelled
   with `headD` (the groups built by `populate` are never empty) and
   `r['rrdatas'][0]` with `rrdatas.headD ""`. -/

/-- Default used to model `records[0]` via `headD`. -/
def wireDefault : WireRecord := { name := "", type := "", ttl := 0, rrdatas := [] }

/-- Models `_data_for_multiple` (lines 89-94). -/
def data_for_multiple (t : String) (records : List WireRecord) : NeutralData :=
  { ttl := (records.headD wireDefault).ttl
    type := t
    data := RData.values (records.map (fun r => r.rrdatas.headD "")) }

/-- Models `_data_for_TXT` (lines 100-105): escapes each `;` of the raw value. -/
def data_for_TXT (t : String) (records : List WireRecord) : NeutralData :=
  { ttl := (records.headD wireDefault).ttl
    type := t
    data := RData.values (records.map (fun r => escapeSemis (r.rrdatas.headD ""))) }

/-- Models `_data_for_CNAME` (lines 107-113). -/
def data_for_CNAME (t : String) (records : List WireRecord) : NeutralData :=
  { ttl := (records.headD wireDefault).ttl
    type := t
    data := RData.value ((records.headD wireDefault).rrdatas.headD "") }

/-- Models `_data_for_MX` (lines 115-126). -/
def data_for_MX (t : String) (records : List WireRecord) : NeutralData :=
  { ttl := (records.headD wireDefault).ttl
    type := t
    data := RData.mxValues (records.map (fun r =>
      { preference := r.priority, exchange := r.rrdatas.headD "" })) }

/-- Models `_data_for_SRV` (lines 128-133). -/
def data_for_SRV (t : String) (records : List WireRecord) : NeutralData :=
  { ttl := (records.headD wireDefault).ttl
    type := t
    data := RData.values (records.map (fun r => r.rrdatas.headD "")) }

/-- Models `_data_for_NAPTR` (lines 135-140). -/
def data_for_NAPTR (t : String) (records : List WireRecord) : NeutralData :=
  { ttl := (records.headD wireDefault).ttl
    type := t
    data := RData.values (records.map (fun r => r.rrdatas.headD "")) }

/-- Models `_data_for_NS` (lines 142-147). -/
def data_for_NS (t : String) (records : List WireRecord) : NeutralData :=
  { ttl := (records.headD wireDefault).ttl
    type := t
    data := RData.values (records.map (fun r => r.rrdatas.headD "")) }

/-- Models `getattr(self, '_data_for_' + type)`: the inbound dispatch.  Only the
attributes actually defined in the class resolve; `none` models the
`AttributeError` for a type with no translator (CAA, PTR). -/
def data_for (t : String) : Option (String → List WireRecord → NeutralData) :=
  if t = "A" ∨ t = "AAAA" ∨ t = "SPF" then some data_for_multiple
  else if t = "TXT" then some data_for_TXT
  else if t = "CNAME" then some data_for_CNAME
  else if t = "MX" then some data_for_MX
  else if t = "SRV" then some data_for_SRV
  else if t = "NAPTR" then some data_for_NAPTR
  else if t = "NS" then some data_for_NS
  else none

/- ------------------------------------------------------------------ -/
/- Outbound translators `_contents_for_*` (lines 149-170). -/

/-- Models `_contents_for_multiple` (lines 149-151): one `{'rrdatas': [value]}`
fragment per value. -/
def contents_for_multiple (r : NeutralRecord) : List Fragment :=
  r.values.map (fun v => { rrdatas := some [v] })

/-- Models `_contents_for_TXT` (lines 158-160): one `{'content': value}` fragment
per value, with `\;` unescaped back to `;`. -/
def contents_for_TXT (r : NeutralRecord) : List Fragment :=
  r.values.map (fun v => { content := some (unescapeSemis v) })

/-- Models `_contents_for_CNAME` (lines 162-163). -/
def contents_for_CNAME (r : NeutralRecord) : List Fragment :=
  [{ content := some r.value }]

/-- Models `_contents_for_MX` (lines 165-170). -/
def contents_for_MX (r : NeutralRecord) : List Fragment :=
  r.mxValues.map (fun v => { priority := some v.preference, content := some v.exchange })

/-- Models `getattr(self, '_contents_for_' + type)`: the outbound dispatch.
`_contents_for_*` exists only for A, AAAA, NS, SPF, TXT, CNAME and MX;
`none` models the `AttributeError` for every other type. -/
def contents_for (r : NeutralRecord) : Option (List Fragment) :=
  if r.rtype = "A" ∨ r.rtype = "AAAA" ∨ r.rtype = "NS" ∨ r.rtype = "SPF" then
    some (contents_for_multiple r)
  else if r.rtype = "TXT" then some (contents_for_TXT r)
  else if r.rtype = "CNAME" then some (contents_for_CNAME r)
  else if r.rtype = "MX" then some (contents_for_MX r)
  else none

/- ------------------------------------------------------------------ -/
/- Python dicts (insertion-ordered association lists with unique keys). -/

/-- Insertion-ordered dict with `String` keys. -/
abbrev Dict (V : Type) := List (String × V)

/-- Models `d[k]` / `k in d`: first (unique) binding of `k`. -/
def dget {V : Type} (d : Dict V) (k : String) : Option V :=
  match d with
  | [] => none
  | (k1, v) :: rest => if k1 = k then some v else dget rest k

/-- Models `d[k] = v`: replace in place, or append a new binding. -/
def dinsert {V : Type} (d : Dict V) (k : String) (v : V) : Dict V :=
  match d with
  | [] => [(k, v)]
  | (k1, v1) :: rest => if k1 = k then (k, v) :: rest else (k1, v1) :: dinsert rest k v

/-- Models `d.pop(k, None)`: drop the binding of `k` (keys are unique, so removing
every binding of `k` is the same operation). -/
def dpop {V : Type} (d : Dict V) (k : String) : Dict V :=
  d.filter (fun p => decide (p.1 ≠ k))

/- ------------------------------------------------------------------ -/
/- `populate` grouping (lines 52-58): the nested
   `values = defaultdict(lambda: defaultdict(list))` of group lists keyed
   by hostname then by type, in insertion order. -/

/-- The inner `defaultdict(list)`: type → group of wire entries. -/
abbrev InnerDict := List (String × List WireRecord)

/-- The outer dict: hostname → inner dict. -/
abbrev Groups := List (String × InnerDict)

/-- Models `values[name][_type].append(record)` on the inner dict. -/
def innerInsert (inner : InnerDict) (t : String) (r : WireRecord) : InnerDict :=
  match inner with
  | [] => [(t, [r])]
  | (t1, rs) :: rest =>
    if t1 = t then (t1, rs ++ [r]) :: rest else (t1, rs) :: innerInsert rest t r

/-- Models `values[name][_type].append(record)` on the outer dict. -/
def groupInsert (g : Groups) (n t : String) (r : WireRecord) : Groups :=
  match g with
  | [] => [(n, [(t, [r])])]
  | (n1, inner) :: rest =>
    if n1 = n then (n1, innerInsert inner t r) :: rest
    else (n1, inner) :: groupInsert rest n t r

/-- One iteration of the grouping loop (lines 54-58): hostname is computed
from the fqdn by the zone collaborator `hn`, and the record is kept only
when its type is in `SUPPORTS`. -/
def gstep (hn : String → String) (g : Groups) (r : WireRecord) : Groups :=
  if r.type ∈ SUPPORTS then groupInsert g (hn r.name) r.type r else g

/-- The whole grouping loop over the listing. -/
def buildGroups (hn : String → String) (records : List WireRecord) : Groups :=
  records.foldl (gstep hn) []

/-- Lookup of one inner group. -/
def innerLookup (inner : InnerDict) (t : String) : Option (List WireRecord) :=
  match inner with
  | [] => none
  | (t1, rs) :: rest => if t1 = t then some rs else innerLookup rest t

/-- Lookup of the group of wire entries gathered for `(n, t)`. -/
def groupsLookup (g : Groups) (n t : String) : Option (List WireRecord) :=
  match g with
  | [] => none
  | (n1, inner) :: rest => if n1 = n then innerLookup inner t else groupsLookup rest n t

/-- The translation loop over one hostname's inner dict (lines 61-66):
`getattr` failure for a type with no `_data_for_*` raises. -/
def translateInner (n : String) : InnerDict → Except String (List (String × NeutralData))
  | [] => .ok []
  | (t, rs) :: rest =>
    match data_for t with
    | none => .error ("AttributeError: _data_for_" ++ t)
    | some f =>
      match translateInner n rest with
      | .error e => .error e
      | .ok out => .ok ((n, f t rs) :: out)

/-- The translation loop over the outer dict (lines 60-66). -/
def translateGroups : Groups → Except String (List (String × NeutralData))
  | [] => .ok []
  | (n, inner) :: rest =>
    match translateInner n inner with
    | .error e => .error e
    | .ok out1 =>
      match translateGroups rest with
      | .error e => .error e
      | .ok out2 => .ok (out1 ++ out2)

/-- The pure part of `populate` (lines 52-66): from the fetched listing to
the records added to the zone (as `(hostname, data)` pairs), or the raised
error.  The `if records:` guard is the `isEmpty` test. -/
def populateFromListing (hn : String → String) (records : List WireRecord) :
    Except String (List (String × NeutralData)) :=
  if records.isEmpty then .ok []
  else translateGroups (buildGroups hn records)

/- ------------------------------------------------------------------ -/
/- The remote service, the adapter state and the API-call trace. -/

/-- The change body of one write request: `{"additions": [..]}` or
`{"deletions": [..]}` (the constant `"kind": "dns#change"` key is left
implicit).  An entry is a fragment updated with the record's name, type
and ttl (`content.update({...})`). -/
structure WireEntry where
  frag : Fragment
  name : String
  type : String
  ttl : Nat
deriving DecidableEq, Repr

/-- A write-request body. -/
inductive ChangeBody where
  | additions (entries : List WireEntry)
  | deletions (entries : List WireEntry)
deriving DecidableEq, Repr

/-- One remote API call issued by the adapter. -/
inductive ApiCall where
  | listZones
  | listRRSets (zoneId : Option String)
  | createChange (zoneId : Option String) (body : ChangeBody)
deriving DecidableEq, Repr

/-- The remote service: the pages `managedZones().list` would return
(`(dnsName, id)` pairs), and the pages `resourceRecordSets().list` would
return for a given `managedZone=` argument.  One API call is issued per
page, following `list_next` continuations. -/
structure Remote where
  zonePages : List (List (String × String))
  rrsetPages : Option String → List (List WireRecord)

/-- The adapter's mutable state: `self._zones` (None until first access;
a stored value `none` is Python `False`) and `self._zone_records`.
(The `self._zone_records[name] = {}` of `_apply` stores an empty dict;
both empty containers are modelled as `[]`.) -/
structure ProviderState where
  zones : Option (Dict (Option String))
  zone_records : Dict (List WireRecord)
deriving DecidableEq, Repr

/-- The freshly-constructed adapter (lines 44-45). -/
def initialState : ProviderState := { zones := none, zone_records := [] }

/-- Python truthiness of a zone-id value (`False` or the empty string is falsy). -/
def truthy : Option String → Bool
  | none => false
  | some s => decide (s ≠ "")

/-- Models `self.zones` property (lines 71-87): lazily fetch and memoize the whole
paginated zone inventory.  Returns the mapping, the new state, and the API
calls issued (one per page). -/
def zonesProp (remote : Remote) (st : ProviderState) :
    Dict (Option String) × ProviderState × List ApiCall :=
  match st.zones with
  | some zs => (zs, st, [])
  | none =>
    let zs := remote.zonePages.foldl
      (fun acc page => page.foldl (fun a p => dinsert a p.1 (some p.2)) acc) []
    (zs, { st with zones := some zs }, remote.zonePages.map (fun _ => ApiCall.listZones))

/-- The paginated fetch-and-store tail of `zone_records` (lines 225-241):
re-reads `self.zones`, lists all pages for the resolved id, stores the
accumulated records in the cache and returns them. -/
def fetchAndStore (remote : Remote) (st : ProviderState) (zoneName : String)
    (c0 : List ApiCall) : List WireRecord × ProviderState × List ApiCall :=
  let z := zonesProp remote st
  let zid := (dget z.1 zoneName).getD none
  let pages := remote.rrsetPages zid
  let records := pages.foldl (fun acc page => acc ++ page) []
  (records,
   { z.2.1 with zone_records := dinsert z.2.1.zone_records zoneName records },
   c0 ++ z.2.2 ++ pages.map (fun _ => ApiCall.listRRSets zid))

/-- Models `zone_records` (lines 219-241).  When `zone.name` is not yet cached the
zone id is resolved first and a falsy id short-circuits to `[]`; in every
other case the records are fetched from the remote service (the fetch is
not guarded by the cache-membership test). -/
def zone_records (remote : Remote) (st : ProviderState) (zoneName : String) :
    List WireRecord × ProviderState × List ApiCall :=
  if (dget st.zone_records zoneName).isNone then
    let z := zonesProp remote st
    let zid := (dget z.1 zoneName).getD none
    if truthy zid then fetchAndStore remote z.2.1 zoneName z.2.2
    else ([], z.2.1, z.2.2)
  else fetchAndStore remote st zoneName []

/-- Models `populate` (lines 47-69): fetch the listing, group, translate, return
the added records (or the raised error), the new state and the API calls. -/
def populate (remote : Remote) (st : ProviderState) (hn : String → String)
    (zoneName : String) :
    Except String (List (String × NeutralData) × ProviderState × List ApiCall) :=
  let zr := zone_records remote st zoneName
  match populateFromListing hn zr.1 with
  | .error e => .error e
  | .ok out => .ok (out, zr.2.1, zr.2.2)

/-- Models `content.update({"name": .., "type": .., "ttl": ..})`. -/
def augment (f : Fragment) (r : NeutralRecord) : WireEntry :=
  { frag := f, name := r.fqdn, type := r.rtype, ttl := r.ttl }

/-- Models `_apply_Create` (lines 172-191): resolve the zone id by subscript
(`KeyError` when absent), translate `change.new` (AttributeError when the
type has no outbound translator), and issue one single-addition write
request per fragment. -/
def apply_Create (remote : Remote) (st : ProviderState) (new : NeutralRecord) :
    Except String (ProviderState × List ApiCall) :=
  let z := zonesProp remote st
  match dget z.1 new.zoneName with
  | none => .error ("KeyError: " ++ new.zoneName)
  | some zid =>
    match contents_for new with
    | none => .error ("AttributeError: _contents_for_" ++ new.rtype)
    | some frags =>
      .ok (z.2.1, z.2.2 ++ frags.map (fun f =>
        ApiCall.createChange zid (ChangeBody.additions [augment f new])))

/-- The `for record in self.zone_records(existing.zone):` loop of
`_apply_Delete` (lines 196-217): for EACH fetched record set of the zone
(the loop variable is unused), look the translator up and issue one
single-deletion write request per fragment of `change.existing`. -/
def deleteLoop (existing : NeutralRecord) (zid : Option String)
    (recs : List WireRecord) : Except String (List ApiCall) :=
  recs.foldlM (fun (acc : List ApiCall) _ =>
    match contents_for existing with
    | none => Except.error ("AttributeError: _contents_for_" ++ existing.rtype)
    | some frags =>
      Except.ok (acc ++ frags.map (fun f =>
        ApiCall.createChange zid (ChangeBody.deletions [augment f existing])))) []

/-- Models `_apply_Delete` (lines 193-217): resolve the zone id by subscript,
fetch the zone's record sets, then run `deleteLoop`. -/
def apply_Delete (remote : Remote) (st : ProviderState) (existing : NeutralRecord) :
    Except String (ProviderState × List ApiCall) :=
  let z := zonesProp remote st
  match dget z.1 existing.zoneName with
  | none => .error ("KeyError: " ++ existing.zoneName)
  | some zid =>
    let zr := zone_records remote z.2.1 existing.zoneName
    match deleteLoop existing zid zr.1 with
    | .error e => .error e
    | .ok cs => .ok (zr.2.1, z.2.2 ++ zr.2.2 ++ cs)

/-- A planner change.  Only `Create` and `Delete` have handlers; the
class-name dispatch of `_apply` fails for any other change kind. -/
inductive Change where
  | Create (new : NeutralRecord)
  | Delete (existing : NeutralRecord)
  | Update (existing new : NeutralRecord)
deriving DecidableEq, Repr

/-- Models `getattr(self, '_apply_' + class_name)(change)` (lines 256-258). -/
def apply_change (remote : Remote) (st : ProviderState) (c : Change) :
    Except String (ProviderState × List ApiCall) :=
  match c with
  | .Create new => apply_Create remote st new
  | .Delete existing => apply_Delete remote st existing
  | .Update _ _ => .error "AttributeError: _apply_Update"

/-- The change loop of `_apply` (lines 256-258). -/
def applyChanges (remote : Remote) (st : ProviderState) :
    List Change → Except String (ProviderState × List ApiCall)
  | [] => .ok (st, [])
  | c :: rest =>
    match apply_change remote st c with
    | .error e => .error e
    | .ok (st1, cs1) =>
      match applyChanges remote st1 rest with
      | .error e => .error e
      | .ok (st2, cs2) => .ok (st2, cs1 ++ cs2)

/-- A plan: `plan.desired.name` and `plan.changes`. -/
structure Plan where
  desiredName : String
  changes : List Change
deriving DecidableEq, Repr

/-- The `if name not in self.zones:` block of `_apply` (lines 249-254):
reads the `zones` property, and when the zone name is unknown stores the
falsy `self.zones.get(name, False)` under it and seeds
`self._zone_records[name] = {}`. -/
def applyInitState (remote : Remote) (st : ProviderState) (name : String) :
    ProviderState :=
  let z := zonesProp remote st
  if (dget z.1 name).isNone then
    { z.2.1 with
      zones := some (dinsert z.1 name ((dget z.1 name).getD none))
      zone_records := dinsert z.2.1.zone_records name [] }
  else z.2.1

/-- Models `_apply` (lines 243-261): the unknown-zone block, then all changes in
order, then unconditionally `self._zone_records.pop(name, None)`. -/
def apply_plan (remote : Remote) (st : ProviderState) (plan : Plan) :
    Except String (ProviderState × List ApiCall) :=
  let name := plan.desiredName
  match applyChanges remote (applyInitState remote st name) plan.changes with
  | .error e => .error e
  | .ok (st3, cs) =>
    .ok ({ st3 with zone_records := dpop st3.zone_records name },
      (zonesProp remote st).2.2 ++ cs)

/- ------------------------------------------------------------------ -/
/- Helpers for stating the claims. -/

/-- Whether an `Except` result is a raised error. -/
def isErr {α : Type} : Except String α → Bool
  | .error _ => true
  | .ok _ => false

/-- Whether an API call is a write (`changes().create`). -/
def isWriteCall : ApiCall → Bool
  | .createChange _ _ => true
  | _ => false

/-- Number of write requests in a call trace. -/
def writeCount (calls : List ApiCall) : Nat :=
  (calls.filter isWriteCall).length

/-- The grouping predicate: records that land in the `(n, t)` group
(supported type, hostname `n`, type `t`). -/
def matchesGroup (hn : String → String) (n t : String) (r : WireRecord) : Bool :=
  decide (r.type ∈ SUPPORTS) && decide (hn r.name = n) && decide (r.type = t)

/-- Append a batch to an optional group (the effect of a run of inserts on
one `(n, t)` group lookup). -/
def optApp (o : Option (List WireRecord)) (l : List WireRecord) :
    Option (List WireRecord) :=
  match o with
  | some xs => some (xs ++ l)
  | none => if l.isEmpty then none else some l

/-- The values of an inbound translation, when the dispatch succeeds and
the payload is a plain value list. -/
def inboundValues (t : String) (g : List WireRecord) : Option (List String) :=
  match data_for t with
  | none => none
  | some f =>
    match (f t g).data with
    | .values vs => some vs
    | _ => none

/-- What a cache-missing `zone_records` call does for a truthy zone id:
fetch every page from the remote service (one `listRRSets` call per page),
store the accumulated records under the zone name, return them. -/
def freshFetch (remote : Remote) (st : ProviderState) (zoneName : String)
    (zid : Option String) : List WireRecord × ProviderState × List ApiCall :=
  ((remote.rrsetPages zid).foldl (fun acc page => acc ++ page) [],
   { st with zone_records := (dinsert st.zone_records zoneName
       ((remote.rrsetPages zid).foldl (fun acc page => acc ++ page) [])) },
   (remote.rrsetPages zid).map (fun _ => ApiCall.listRRSets zid))

/- ------------------------------------------------------------------ -/
/- Concrete fixtures used by the closed theorems and witnesses. -/

/-- A wire A record `a.unit.tests.` → `1.2.3.4`. -/
def w1 : WireRecord := { name := "a.unit.tests.", type := "A", ttl := 300, rrdatas := ["1.2.3.4"] }

/-- A wire A record `b.unit.tests.` → `5.6.7.8`. -/
def w2 : WireRecord := { name := "b.unit.tests.", type := "A", ttl := 300, rrdatas := ["5.6.7.8"] }

/-- A wire CAA record (supported type with no translator). -/
def wCAA : WireRecord := { name := "c.unit.tests.", type := "CAA", ttl := 300, rrdatas := ["0 issue ca."] }

/-- A remote service with one zone `unit.tests.` (id `z1`) whose listing
holds `w1` and `w2` on a single page. -/
def R1 : Remote :=
  { zonePages := [[("unit.tests.", "z1")]]
    rrsetPages := fun zid => if zid = some "z1" then [[w1, w2]] else [] }

/-- A remote service with one zone `caa.tests.` (id `zc`) whose listing
holds a CAA record. -/
def RC : Remote :=
  { zonePages := [[("caa.tests.", "zc")]]
    rrsetPages := fun zid => if zid = some "zc" then [[wCAA]] else [] }

/-- A remote service with no zones at all. -/
def R0 : Remote := { zonePages := [], rrsetPages := fun _ => [] }

/-- The neutral A record `a.unit.tests.` with the single value `1.2.3.4`. -/
def exA : NeutralRecord :=
  { zoneName := "unit.tests.", fqdn := "a.unit.tests.", rtype := "A", ttl := 300
    rdata := RData.values ["1.2.3.4"] }

/-- An empty plan for the known zone `unit.tests.`. -/
def plan1 : Plan := { desiredName := "unit.tests.", changes := [] }

/-- An empty plan for a zone unknown to the inventory. -/
def planGhost : Plan := { desiredName := "ghost.tests.", changes := [] }

/-- The adapter state after `apply_plan R1 initialState plan1`. -/
def stAfterApply1 : ProviderState :=
  { zones := some [("unit.tests.", some "z1")], zone_records := [] }

/-- The adapter state after `apply_plan R1 initialState planGhost`. -/
def stGhost : ProviderState :=
  { zones := some [("unit.tests.", some "z1"), ("ghost.tests.", none)]
    zone_records := [] }

/-- A neutral TXT record with the given values. -/
def txtRec (vs : List String) : NeutralRecord :=
  { zoneName := "unit.tests.", fqdn := "txt.unit.tests.", rtype := "TXT", ttl := 300
    rdata := RData.values vs }

/-- A neutral SRV record (a multi-value type with no outbound translator). -/
def exSRV : NeutralRecord :=
  { zoneName := "unit.tests.", fqdn := "srv.unit.tests.", rtype := "SRV", ttl := 300
    rdata := RData.values ["10 20 5060 sip.unit.tests."] }

/- ================================================================== -/
/- Theorems.                                                           -/
/- ================================================================== -/

/- TXT escaping (claim C5). -/

theorem escapeSemisL_ne_nil : ∀ l : List Char, l ≠ [] → escapeSemisL l ≠ []
  | [], h => absurd rfl h
  | c :: t, _ => by
    by_cases hc : c = ';' <;> simp [escapeSemisL, hc]

theorem escapeSemisL_head_ne : ∀ (l : List Char) (d : Char) (t : List Char),
    escapeSemisL l = d :: t → d ≠ ';'
  | [], d, t, h => by simp [escapeSemisL] at h
  | c :: r, d, t, h => by
    simp only [escapeSemisL] at h
    by_cases hc : c = ';'
    · rw [if_pos hc] at h
      injection h with h1 h2
      subst h1
      decide
    · rw [if_neg hc] at h
      injection h with h1 h2
      subst h1
      exact hc

theorem escapeSemisL_cons (c : Char) (rest : List Char) :
    escapeSemisL (c :: rest)
      = if c = ';' then '\\' :: ';' :: escapeSemisL rest else c :: escapeSemisL rest := rfl

theorem unescapeSemisL_cons2 (c1 c2 : Char) (rest : List Char) :
    unescapeSemisL (c1 :: c2 :: rest)
      = if c1 = '\\' ∧ c2 = ';' then ';' :: unescapeSemisL rest
        else c1 :: unescapeSemisL (c2 :: rest) := rfl

theorem unescape_escapeL : ∀ l : List Char, unescapeSemisL (escapeSemisL l) = l
  | [] => rfl
  | c :: t => by
    have ih := unescape_escapeL t
    by_cases hc : c = ';'
    · subst hc
      rw [escapeSemisL_cons, if_pos rfl, unescapeSemisL_cons2, if_pos ⟨rfl, rfl⟩, ih]
    · rw [escapeSemisL_cons, if_neg hc]
      cases hE : escapeSemisL t with
      | nil =>
        have ht : t = [] := by
          by_contra hne
          exact escapeSemisL_ne_nil t hne hE
        subst ht
        rfl
      | cons d r =>
        have hd : d ≠ ';' := escapeSemisL_head_ne t d r hE
        rw [unescapeSemisL_cons2, if_neg (fun hand => hd hand.2), ← hE, ih]

theorem unescape_escape (s : String) : unescapeSemis (escapeSemis s) = s := by
  cases s with
  | mk data =>
    show String.mk (unescapeSemisL (escapeSemisL data)) = String.mk data
    rw [unescape_escapeL]

/-- C5: inbound TXT translation escapes each `;` of a raw value to `\;`
(the translated values are `escapeSemis` of the raw strings), outbound TXT
translation emits `{content: value}` fragments with `\;` unescaped back to
`;`, and translate-out-then-translate-in on a single-fragment TXT record is
the identity on the escaped form (`escapeSemis (unescapeSemis v) = v` for
every `v` in the image of `escapeSemis`). -/
theorem txt_escape_roundtrip (u v raw : String) (hv : v = escapeSemis u) :
    (data_for_TXT "TXT"
        [{ name := "txt.unit.tests.", type := "TXT", ttl := 300, rrdatas := [raw] }]).data
      = RData.values [escapeSemis raw] ∧
    contents_for (txtRec [v]) = some [{ content := some (unescapeSemis v) }] ∧
    escapeSemis (unescapeSemis v) = v := by
  refine ⟨rfl, rfl, ?_⟩
  subst hv
  rw [unescape_escape]

/-- Witness for C5 at `u = "a;b"`. -/
theorem txt_escape_roundtrip_witness :
    escapeSemis (unescapeSemis (escapeSemis "a;b")) = escapeSemis "a;b" :=
  (txt_escape_roundtrip "a;b" (escapeSemis "a;b") "x;y" rfl).2.2

/- Claim C1 (code bug): `_apply_Delete` loops over every record set of the
zone and issues its fragment-requests once per record set.  On a zone whose
listing has two record sets, deleting a one-value A record (one fragment)
issues two write requests, not one. -/

/-- C1: at the concrete failing input, the Delete change issues 2 write
requests while the Outbound Translator produces exactly 1 fragment. -/
theorem delete_write_count_bug :
    Except.map (fun p => writeCount p.2) (apply_Delete R1 initialState exA)
        = Except.ok 2 ∧
    Option.map List.length (contents_for exA) = some 1 :=
  ⟨rfl, rfl⟩

/- Claim C2 (code bug): `zone_records` stores the fetched snapshot in
`self._zone_records` but the fetch is not guarded by the cache-membership
test, so a second call for the same known zone issues a fresh remote fetch
instead of being served from the cache. -/

/-- C2: after a first `zone_records` call for the known zone `unit.tests.`
has populated the cache, a second call (with no intervening apply) still
issues a remote `resourceRecordSets().list` request. -/
theorem zone_records_refetch_bug :
    dget ((zone_records R1 initialState "unit.tests.").2.1).zone_records "unit.tests."
        = some [w1, w2] ∧
    (zone_records R1 ((zone_records R1 initialState "unit.tests.").2.1) "unit.tests.").2.2
        = [ApiCall.listRRSets (some "z1")] :=
  ⟨rfl, rfl⟩

/- Claim C3 (corrected): fragment cardinality is as claimed, but for
A/AAAA/NS/SPF the fragments are `{rrdatas: [value]}`, not
`{content: value}`. -/

/-- Counterexample to C3 as stated: the single fragment produced for the
one-value A record `exA` has no `content` key at all — its shape is
`{rrdatas: ["1.2.3.4"]}`, not `{content: "1.2.3.4"}`. -/
theorem contents_for_A_shape_cex :
    contents_for exA
        = some [{ content := none, rrdatas := some ["1.2.3.4"], priority := none }] ∧
    ({ content := none, rrdatas := some ["1.2.3.4"], priority := none } : Fragment)
        ≠ ({ content := some "1.2.3.4", rrdatas := none, priority := none } : Fragment) :=
  ⟨rfl, by decide⟩

/-- C3 (amended): for every multi-value NeutralRecord whose type has an
outbound translator, exactly one fragment per element of `values` — each
A/AAAA/NS/SPF fragment of shape `{rrdatas: [value]}` (not
`{content: value}`), each TXT fragment of shape `{content: value}` with
`\;` unescaped; exactly one `{content: value}` fragment for CNAME; one
`{priority, content}` fragment per `{preference, exchange}` pair for MX;
and for the multi-value types with no `_contents_for_*` attribute (SRV,
NAPTR — likewise CAA, PTR) the outbound dispatch raises AttributeError and
produces no fragments at all. -/
theorem outbound_fragments_amended :
    (∀ (r : NeutralRecord) (vs : List String),
        (r.rtype = "A" ∨ r.rtype = "AAAA" ∨ r.rtype = "NS" ∨ r.rtype = "SPF") →
        r.rdata = RData.values vs →
        contents_for r = some (vs.map (fun v => { rrdatas := some [v] })) ∧
        Option.map List.length (contents_for r) = some vs.length) ∧
    (∀ (r : NeutralRecord) (vs : List String),
        r.rtype = "TXT" → r.rdata = RData.values vs →
        contents_for r = some (vs.map (fun v => { content := some (unescapeSemis v) })) ∧
        Option.map List.length (contents_for r) = some vs.length) ∧
    (∀ (r : NeutralRecord) (v : String),
        r.rtype = "CNAME" → r.rdata = RData.value v →
        contents_for r = some [{ content := some v }]) ∧
    (∀ (r : NeutralRecord) (ps : List MxValue),
        r.rtype = "MX" → r.rdata = RData.mxValues ps →
        contents_for r = some (ps.map (fun p =>
          { priority := some p.preference, content := some p.exchange })) ∧
        Option.map List.length (contents_for r) = some ps.length) ∧
    (∀ (r : NeutralRecord),
        (r.rtype = "SRV" ∨ r.rtype = "NAPTR" ∨ r.rtype = "CAA" ∨ r.rtype = "PTR") →
        contents_for r = none) := by
  refine ⟨?_, ?_, ?_, ?_, ?_⟩
  · intro r vs ht hv
    have hc : contents_for r = some (contents_for_multiple r) := by
      unfold contents_for
      rw [if_pos ht]
    have hfr : contents_for r = some (vs.map (fun v => { rrdatas := some [v] })) := by
      rw [hc]
      unfold contents_for_multiple NeutralRecord.values
      rw [hv]
    refine ⟨hfr, ?_⟩
    rw [hfr]
    simp
  · intro r vs ht hv
    have hfr : contents_for r
        = some (vs.map (fun v => { content := some (unescapeSemis v) })) := by
      simp [contents_for, ht, contents_for_TXT, NeutralRecord.values, hv]
    refine ⟨hfr, ?_⟩
    rw [hfr]
    simp
  · intro r v ht hv
    simp [contents_for, ht, contents_for_CNAME, NeutralRecord.value, hv]
  · intro r ps ht hv
    have hfr : contents_for r = some (ps.map (fun p =>
        { priority := some p.preference, content := some p.exchange })) := by
      simp [contents_for, ht, contents_for_MX, NeutralRecord.mxValues, hv]
    refine ⟨hfr, ?_⟩
    rw [hfr]
    simp
  · intro r ht
    rcases ht with h | h | h | h <;> simp [contents_for, h]

/-- Witness for C3 (amended) at an A record, a TXT record and an SRV
record. -/
theorem outbound_fragments_amended_witness :
    contents_for exA = some [{ rrdatas := some ["1.2.3.4"] }] ∧
    contents_for (txtRec ["a\\;b"])
      = some [{ content := some (unescapeSemis "a\\;b") }] ∧
    contents_for exSRV = none :=
  ⟨(outbound_fragments_amended.1 exA ["1.2.3.4"] (Or.inl rfl) rfl).1,
   (outbound_fragments_amended.2.1 (txtRec ["a\\;b"]) ["a\\;b"] rfl rfl).1,
   outbound_fragments_amended.2.2.2.2 exSRV (Or.inl rfl)⟩

/- Claim C8: unknown zone → empty listing, populate succeeds with zero
records. -/

/-- C8: for a zone absent from the (lazily fetched) zone inventory whose
record cache has not been pre-populated, `zone_records` returns the empty
sequence without any record-set fetch, and `populate` succeeds with zero
records. -/
theorem unknown_zone_populate_empty (remote : Remote) (st : ProviderState)
    (hn : String → String) (zoneName : String)
    (h1 : dget (zonesProp remote st).1 zoneName = none)
    (h2 : dget st.zone_records zoneName = none) :
    zone_records remote st zoneName
        = ([], (zonesProp remote st).2.1, (zonesProp remote st).2.2) ∧
    populate remote st hn zoneName
        = .ok ([], (zonesProp remote st).2.1, (zonesProp remote st).2.2) := by
  have hz : zone_records remote st zoneName
      = ([], (zonesProp remote st).2.1, (zonesProp remote st).2.2) := by
    unfold zone_records
    rw [h2]
    simp [h1, truthy]
  refine ⟨hz, ?_⟩
  unfold populate
  rw [hz]
  rfl

/-- Witness for C8: populate of the zone `nope.`, unknown to a remote with
no zones at all, succeeds and produces zero records. -/
theorem unknown_zone_populate_empty_witness :
    populate R0 initialState (fun s => s) "nope."
        = .ok ([], { zones := some [], zone_records := [] }, []) :=
  (unknown_zone_populate_empty R0 initialState (fun s => s) "nope." rfl rfl).2

/- Grouping lemmas (claims C4, C7, C9). -/

theorem innerLookup_innerInsert_self (inner : InnerDict) (t : String) (r : WireRecord) :
    innerLookup (innerInsert inner t r)
        t = some ((innerLookup inner t).getD [] ++ [r]) := by
  induction inner with
  | nil => simp [innerInsert, innerLookup]
  | cons p rest ih =>
    obtain ⟨t1, rs⟩ := p
    by_cases h : t1 = t
    · subst h
      simp [innerInsert, innerLookup]
    · simp [innerInsert, innerLookup, h, ih]

theorem innerLookup_innerInsert_ne (inner : InnerDict) (t t' : String) (r : WireRecord)
    (h : t' ≠ t) :
    innerLookup (innerInsert inner t r) t' = innerLookup inner t' := by
  induction inner with
  | nil => simp [innerInsert, innerLookup, Ne.symm h]
  | cons p rest ih =>
    obtain ⟨t1, rs⟩ := p
    by_cases h1 : t1 = t
    · subst h1
      simp [innerInsert, innerLookup, Ne.symm h]
    · simp [innerInsert, innerLookup, h1, ih]

theorem groupsLookup_groupInsert_self (g : Groups) (n t : String) (r : WireRecord) :
    groupsLookup (groupInsert g n t r) n t
        = some ((groupsLookup g n t).getD [] ++ [r]) := by
  induction g with
  | nil => simp [groupInsert, groupsLookup, innerInsert, innerLookup]
  | cons p rest ih =>
    obtain ⟨n1, inner⟩ := p
    by_cases h : n1 = n
    · subst h
      simp [groupInsert, groupsLookup, innerLookup_innerInsert_self]
    · simp [groupInsert, groupsLookup, h, ih]

theorem groupsLookup_groupInsert_ne (g : Groups) (n t n' t' : String) (r : WireRecord)
    (h : n' ≠ n ∨ t' ≠ t) :
    groupsLookup (groupInsert g n t r) n' t' = groupsLookup g n' t' := by
  induction g with
  | nil =>
    rcases h with h | h
    · simp [groupInsert, groupsLookup, Ne.symm h]
    · by_cases hn : n = n'
      · simp [groupInsert, groupsLookup, hn, innerLookup, Ne.symm h]
      · simp [groupInsert, groupsLookup, hn]
  | cons p rest ih =>
    obtain ⟨n1, inner⟩ := p
    by_cases h1 : n1 = n
    · subst h1
      by_cases h2 : n1 = n'
      · rcases h with h | h
        · exact absurd h2.symm h
        · simp [groupInsert, groupsLookup, h2,
            innerLookup_innerInsert_ne inner t t' r h]
      · simp [groupInsert, groupsLookup, h2]
    · simp [groupInsert, groupsLookup, h1, ih]

theorem optApp_nil (o : Option (List WireRecord)) : optApp o [] = o := by
  cases o <;> simp [optApp]

theorem optApp_push (o : Option (List WireRecord)) (r : WireRecord) (l : List WireRecord) :
    optApp (some ((o.getD []) ++ [r])) l = optApp o (r :: l) := by
  cases o <;> simp [optApp]

theorem foldl_gstep_lookup (hn : String → String) :
    ∀ (l : List WireRecord) (g : Groups) (n t : String),
      groupsLookup (l.foldl (gstep hn) g) n t
        = optApp (groupsLookup g n t) (l.filter (matchesGroup hn n t))
  | [], g, n, t => by simp [optApp_nil]
  | r :: l, g, n, t => by
    have ih := foldl_gstep_lookup hn l
    rw [List.foldl_cons, List.filter_cons]
    by_cases hs : r.type ∈ SUPPORTS
    · by_cases hmn : hn r.name = n
      · by_cases hmt : r.type = t
        · subst hmn
          subst hmt
          have hm : matchesGroup hn (hn r.name) r.type r = true := by
            simp [matchesGroup, hs]
          rw [if_pos hm, ih]
          unfold gstep
          rw [if_pos hs, groupsLookup_groupInsert_self, optApp_push]
        · have hm : matchesGroup hn n t r = false := by
            simp [matchesGroup, hmt]
          rw [if_neg (by simp [hm]), ih]
          unfold gstep
          rw [if_pos hs,
            groupsLookup_groupInsert_ne g (hn r.name) r.type n t r
              (Or.inr (fun hh => hmt hh.symm))]
      · have hm : matchesGroup hn n t r = false := by
          simp [matchesGroup, hmn]
        rw [if_neg (by simp [hm]), ih]
        unfold gstep
        rw [if_pos hs,
          groupsLookup_groupInsert_ne g (hn r.name) r.type n t r
            (Or.inl (fun hh => hmn hh.symm))]
    · have hm : matchesGroup hn n t r = false := by
        simp [matchesGroup, hs]
      rw [if_neg (by simp [hm]), ih]
      unfold gstep
      rw [if_neg hs]

theorem buildGroups_lookup (hn : String → String) (l : List WireRecord) (n t : String) :
    groupsLookup (buildGroups hn l) n t
      = optApp none (l.filter (matchesGroup hn n t)) := by
  unfold buildGroups
  rw [foldl_gstep_lookup]
  rfl

/- Claim C9: unsupported types are dropped before grouping. -/

theorem gstep_unsupported (hn : String → String) (g : Groups) (r : WireRecord)
    (hs : r.type ∉ SUPPORTS) : gstep hn g r = g := by
  unfold gstep
  rw [if_neg hs]

theorem foldl_gstep_filter (hn : String → String) :
    ∀ (l : List WireRecord) (g : Groups),
      (l.filter (fun r => decide (r.type ∈ SUPPORTS))).foldl (gstep hn) g
        = l.foldl (gstep hn) g
  | [], g => rfl
  | r :: l, g => by
    rw [List.filter_cons, List.foldl_cons]
    by_cases hs : r.type ∈ SUPPORTS
    · rw [if_pos (by simp [hs]), List.foldl_cons, foldl_gstep_filter hn l]
    · rw [if_neg (by simp [hs]), foldl_gstep_filter hn l, gstep_unsupported hn g r hs]

theorem buildGroups_filter (hn : String → String) (l : List WireRecord) :
    buildGroups hn (l.filter (fun r => decide (r.type ∈ SUPPORTS)))
      = buildGroups hn l := by
  unfold buildGroups
  exact foldl_gstep_filter hn l []

/-- C9: records whose type is outside `SUPPORTS` are silently dropped
before grouping — `populate`'s translation behaves exactly as if the
listing had been pre-filtered to the supported types, so such records
never surface and never cause `populate` to fail. -/
theorem unsupported_types_dropped (hn : String → String) (l : List WireRecord) :
    populateFromListing hn l
      = populateFromListing hn (l.filter (fun r => decide (r.type ∈ SUPPORTS))) := by
  unfold populateFromListing
  rw [← buildGroups_filter hn l]
  by_cases h1 : l.isEmpty
  · have hl : l = [] := by
      cases l with
      | nil => rfl
      | cons a t => simp at h1
    subst hl
    rfl
  · rw [if_neg h1]
    by_cases h2 : (l.filter (fun r => decide (r.type ∈ SUPPORTS))).isEmpty
    · have hf : l.filter (fun r => decide (r.type ∈ SUPPORTS)) = [] := by
        cases hq : l.filter (fun r => decide (r.type ∈ SUPPORTS)) with
        | nil => rfl
        | cons a t => rw [hq] at h2; simp at h2
      rw [if_pos h2, hf]
      rfl
    · rw [if_neg h2]

/- Claim C4: inbound order preservation for multi-value groups. -/

theorem map_headD_eq_join : ∀ (g : List WireRecord),
    (∀ r ∈ g, r.rrdatas.length = 1) →
    g.map (fun r => r.rrdatas.headD "") = (g.map (fun r => r.rrdatas)).flatten
  | [], _ => rfl
  | r :: g, h => by
    have hr : r.rrdatas.length = 1 := h r (List.mem_cons_self _ _)
    obtain ⟨v, hv⟩ := List.length_eq_one.mp hr
    have ih := map_headD_eq_join g (fun x hx => h x (List.mem_cons_of_mem _ hx))
    simp only [List.map_cons, List.flatten_cons, hv, ih, List.singleton_append]
    rfl

/-- C4: for every group of wire entries of type A, AAAA, TXT or SPF that
`populate`'s grouping produced, (a) the group is exactly the source-order
filter of the listing (no re-sorting), (b) the inbound values are the
in-order map of each entry's first rrdata (escaped for TXT), and (c) when
each entry carries exactly one rrdata string — the shape the adapter's own
write path produces — the values are exactly the concatenation of the
`rrdatas` strings in source order. -/
theorem inbound_multi_order (hn : String → String) (l : List WireRecord)
    (n t : String) (g : List WireRecord)
    (ht : t = "A" ∨ t = "AAAA" ∨ t = "TXT" ∨ t = "SPF")
    (hg : groupsLookup (buildGroups hn l) n t = some g) :
    g = l.filter (matchesGroup hn n t) ∧
    inboundValues t g = some (g.map (fun r =>
      if t = "TXT" then escapeSemis (r.rrdatas.headD "") else r.rrdatas.headD "")) ∧
    ((∀ r ∈ g, r.rrdatas.length = 1) →
      inboundValues t g = some (((g.map (fun r => r.rrdatas)).flatten).map (fun v =>
        if t = "TXT" then escapeSemis v else v))) := by
  have hfil : g = l.filter (matchesGroup hn n t) := by
    rw [buildGroups_lookup] at hg
    unfold optApp at hg
    by_cases he : (l.filter (matchesGroup hn n t)).isEmpty
    · rw [if_pos he] at hg
      cases hg
    · rw [if_neg he] at hg
      injection hg with h
      exact h.symm
  have h2 : inboundValues t g = some (g.map (fun r =>
      if t = "TXT" then escapeSemis (r.rrdatas.headD "") else r.rrdatas.headD "")) := by
    rcases ht with h | h | h | h <;> subst h <;>
      simp [inboundValues, data_for, data_for_multiple, data_for_TXT]
  refine ⟨hfil, h2, fun h1 => ?_⟩
  rw [h2, ← map_headD_eq_join g h1, List.map_map]
  rfl

/-- Witness for C4: the A group of `a.unit.tests.` in the listing
`[w1, w2]` translates to its rrdatas in source order. -/
theorem inbound_multi_order_witness :
    inboundValues "A" [w1] = some ["1.2.3.4"] :=
  (inbound_multi_order (fun s => s) [w1, w2] "a.unit.tests." "A" [w1]
      (Or.inl rfl) (by decide)).2.1

/- Claim C7: a supported type with no translator makes populate fail. -/

theorem innerLookup_mem : ∀ (inner : InnerDict) (t : String) (rs : List WireRecord),
    innerLookup inner t = some rs → (t, rs) ∈ inner
  | [], t, rs, h => by simp [innerLookup] at h
  | (t1, rs1) :: rest, t, rs, h => by
    simp only [innerLookup] at h
    by_cases h1 : t1 = t
    · rw [if_pos h1] at h
      injection h with h2
      subst h1
      subst h2
      exact List.mem_cons_self _ _
    · rw [if_neg h1] at h
      exact List.mem_cons_of_mem _ (innerLookup_mem rest t rs h)

theorem groupsLookup_mem : ∀ (g : Groups) (n t : String) (rs : List WireRecord),
    groupsLookup g n t = some rs → ∃ inner, (n, inner) ∈ g ∧ (t, rs) ∈ inner
  | [], n, t, rs, h => by simp [groupsLookup] at h
  | (n1, i1) :: rest, n, t, rs, h => by
    simp only [groupsLookup] at h
    by_cases h1 : n1 = n
    · rw [if_pos h1] at h
      subst h1
      exact ⟨i1, List.mem_cons_self _ _, innerLookup_mem i1 t rs h⟩
    · rw [if_neg h1] at h
      obtain ⟨inner, hg, hi⟩ := groupsLookup_mem rest n t rs h
      exact ⟨inner, List.mem_cons_of_mem _ hg, hi⟩

theorem translateInner_isErr : ∀ (n : String) (inner : InnerDict) (t : String)
    (rs : List WireRecord), (t, rs) ∈ inner → data_for t = none →
    isErr (translateInner n inner) = true
  | n, [], t, rs, hmem, _ => by simp at hmem
  | n, (t1, rs1) :: rest, t, rs, hmem, hnone => by
    simp only [translateInner]
    cases hdf : data_for t1 with
    | none => simp [isErr]
    | some f =>
      have hmem2 : (t, rs) ∈ rest := by
        rcases List.mem_cons.mp hmem with h | h
        · exfalso
          injection h with h1 h2
          subst h1
          rw [hnone] at hdf
          exact Option.noConfusion hdf
        · exact h
      have hrec := translateInner_isErr n rest t rs hmem2 hnone
      cases h2 : translateInner n rest with
      | error e => simp [isErr]
      | ok out =>
        rw [h2] at hrec
        simp [isErr] at hrec

theorem translateGroups_isErr : ∀ (g : Groups) (n : String) (inner : InnerDict),
    (n, inner) ∈ g → isErr (translateInner n inner) = true →
    isErr (translateGroups g) = true
  | [], n, inner, hmem, _ => by simp at hmem
  | (n1, i1) :: rest, n, inner, hmem, herr => by
    simp only [translateGroups]
    cases h1 : translateInner n1 i1 with
    | error e => simp [isErr]
    | ok out1 =>
      have hmem2 : (n, inner) ∈ rest := by
        rcases List.mem_cons.mp hmem with h | h
        · exfalso
          injection h with ha hb
          subst ha
          subst hb
          rw [h1] at herr
          simp [isErr] at herr
        · exact h
      have hrec := translateGroups_isErr rest n inner hmem2 herr
      cases h2 : translateGroups rest with
      | error e => simp [isErr]
      | ok out2 =>
        rw [h2] at hrec
        simp [isErr] at hrec

theorem optApp_none_of_mem {x : WireRecord} {l : List WireRecord} (h : x ∈ l) :
    optApp none l = some l := by
  cases l with
  | nil => simp at h
  | cons a t => simp [optApp]

/-- C7: when the fetched listing of a zone contains a record of a
declared-supported type with no inbound translator (CAA or PTR as shipped),
`populate` fails with an unrecoverable error (the `getattr` lookup of
`_data_for_CAA`/`_data_for_PTR`) rather than silently dropping it. -/
theorem populate_missing_translator_fails (remote : Remote) (st : ProviderState)
    (hn : String → String) (zoneName : String) (r : WireRecord)
    (hmem : r ∈ (zone_records remote st zoneName).1)
    (hty : r.type = "CAA" ∨ r.type = "PTR") :
    isErr (populate remote st hn zoneName) = true := by
  have hnone : data_for r.type = none := by
    rcases hty with h | h <;> rw [h] <;> rfl
  have hsupp : r.type ∈ SUPPORTS := by
    rcases hty with h | h <;> rw [h] <;> decide
  have hfil : r ∈ (zone_records remote st zoneName).1.filter
      (matchesGroup hn (hn r.name) r.type) := by
    rw [List.mem_filter]
    exact ⟨hmem, by simp [matchesGroup, hsupp]⟩
  have hlook : groupsLookup (buildGroups hn (zone_records remote st zoneName).1)
      (hn r.name) r.type
      = some ((zone_records remote st zoneName).1.filter
          (matchesGroup hn (hn r.name) r.type)) := by
    rw [buildGroups_lookup]
    exact optApp_none_of_mem hfil
  obtain ⟨inner, hinG, hinI⟩ := groupsLookup_mem _ _ _ _ hlook
  have hTG : isErr (translateGroups
      (buildGroups hn (zone_records remote st zoneName).1)) = true :=
    translateGroups_isErr _ _ _ hinG (translateInner_isErr _ _ _ _ hinI hnone)
  have hne : (zone_records remote st zoneName).1.isEmpty = false := by
    cases hq : (zone_records remote st zoneName).1 with
    | nil => rw [hq] at hmem; simp at hmem
    | cons a t => rfl
  have hpl : isErr (populateFromListing hn (zone_records remote st zoneName).1)
      = true := by
    unfold populateFromListing
    rw [hne]
    simpa using hTG
  show isErr
      (match populateFromListing hn (zone_records remote st zoneName).1 with
        | Except.error e => Except.error e
        | Except.ok out => Except.ok (out, (zone_records remote st zoneName).2.1,
            (zone_records remote st zoneName).2.2)) = true
  cases hres : populateFromListing hn (zone_records remote st zoneName).1 with
  | error e => simp [isErr]
  | ok out =>
    rw [hres] at hpl
    simp [isErr] at hpl

/-- Witness for C7: populate of the zone `caa.tests.`, whose listing holds
a CAA record, raises. -/
theorem populate_missing_translator_fails_witness :
    isErr (populate RC initialState (fun s => s) "caa.tests.") = true :=
  populate_missing_translator_fails RC initialState (fun s => s) "caa.tests." wCAA
    (by decide) (Or.inl rfl)

/- Cache and state lemmas (claims C6, C10). -/

theorem dget_dinsert_self {V : Type} (d : Dict V) (k : String) (v : V) :
    dget (dinsert d k v) k = some v := by
  induction d with
  | nil => simp [dinsert, dget]
  | cons p rest ih =>
    obtain ⟨k1, v1⟩ := p
    by_cases h : k1 = k
    · subst h
      simp [dinsert, dget]
    · simp [dinsert, dget, h, ih]

theorem dget_dpop {V : Type} (d : Dict V) (k : String) :
    dget (dpop d k) k = none := by
  induction d with
  | nil => rfl
  | cons p rest ih =>
    obtain ⟨k1, v1⟩ := p
    unfold dpop at ih ⊢
    rw [List.filter_cons]
    by_cases h : k1 = k
    · rw [if_neg (by simp [h])]
      exact ih
    · rw [if_pos (by simp [h])]
      show (if k1 = k then some v1
        else dget (List.filter (fun p => decide (p.1 ≠ k)) rest) k) = none
      rw [if_neg h]
      exact ih

theorem zonesProp_cached (remote : Remote) (st : ProviderState)
    (zs : Dict (Option String)) (h : st.zones = some zs) :
    zonesProp remote st = (zs, st, []) := by
  unfold zonesProp
  rw [h]

theorem zone_records_zones (remote : Remote) (st : ProviderState) (zoneName : String)
    (zs : Dict (Option String)) (hz : st.zones = some zs) :
    ((zone_records remote st zoneName).2.1).zones = some zs := by
  simp only [zone_records, fetchAndStore, zonesProp_cached remote st zs hz]
  split
  · split
    · exact hz
    · exact hz
  · exact hz

theorem apply_change_zones (remote : Remote) (st : ProviderState) (c : Change)
    (st1 : ProviderState) (cs : List ApiCall) (zs : Dict (Option String))
    (hz : st.zones = some zs)
    (hok : apply_change remote st c = .ok (st1, cs)) : st1.zones = some zs := by
  cases c with
  | Create new =>
    cases hd : dget zs new.zoneName with
    | none =>
      simp only [apply_change, apply_Create, zonesProp_cached remote st zs hz,
        hd] at hok
      cases hok
    | some zid =>
      cases hcf : contents_for new with
      | none =>
        simp only [apply_change, apply_Create, zonesProp_cached remote st zs hz,
          hd, hcf] at hok
        cases hok
      | some frags =>
        simp only [apply_change, apply_Create, zonesProp_cached remote st zs hz,
          hd, hcf, Except.ok.injEq, Prod.mk.injEq] at hok
        obtain ⟨ha, hb⟩ := hok
        rw [← ha]
        exact hz
  | Delete existing =>
    cases hd : dget zs existing.zoneName with
    | none =>
      simp only [apply_change, apply_Delete, zonesProp_cached remote st zs hz,
        hd] at hok
      cases hok
    | some zid =>
      cases hfd : deleteLoop existing zid (zone_records remote st existing.zoneName).1 with
      | error e =>
        simp only [apply_change, apply_Delete, zonesProp_cached remote st zs hz,
          hd, hfd] at hok
        cases hok
      | ok cs2 =>
        simp only [apply_change, apply_Delete, zonesProp_cached remote st zs hz,
          hd, hfd, Except.ok.injEq, Prod.mk.injEq] at hok
        obtain ⟨ha, hb⟩ := hok
        rw [← ha]
        exact zone_records_zones remote st existing.zoneName zs hz
  | Update existing new =>
    simp only [apply_change] at hok
    cases hok

theorem applyChanges_zones (remote : Remote) (zs : Dict (Option String)) :
    ∀ (cs : List Change) (st st1 : ProviderState) (tr : List ApiCall),
      st.zones = some zs → applyChanges remote st cs = .ok (st1, tr) →
      st1.zones = some zs
  | [], st, st1, tr, hz, hok => by
    simp only [applyChanges] at hok
    injection hok with h1
    injection h1 with ha hb
    rw [← ha]
    exact hz
  | c :: rest, st, st1, tr, hz, hok => by
    cases hc : apply_change remote st c with
    | error e =>
      simp only [applyChanges, hc] at hok
      cases hok
    | ok p =>
      obtain ⟨stm, csm⟩ := p
      have hzm : stm.zones = some zs := apply_change_zones remote st c stm csm zs hz hc
      cases hr : applyChanges remote stm rest with
      | error e =>
        simp only [applyChanges, hc, hr] at hok
        cases hok
      | ok q =>
        obtain ⟨st2, cs2⟩ := q
        simp only [applyChanges, hc, hr, Except.ok.injEq, Prod.mk.injEq] at hok
        obtain ⟨ha, hb⟩ := hok
        rw [← ha]
        exact applyChanges_zones remote zs rest stm st2 cs2 hzm hr

theorem apply_plan_inv (remote : Remote) (st : ProviderState) (plan : Plan)
    (st' : ProviderState) (calls : List ApiCall)
    (h : apply_plan remote st plan = .ok (st', calls)) :
    ∃ st3 cs, applyChanges remote (applyInitState remote st plan.desiredName)
        plan.changes = .ok (st3, cs) ∧
      st' = { st3 with zone_records := dpop st3.zone_records plan.desiredName } := by
  simp only [apply_plan] at h
  cases hA : applyChanges remote (applyInitState remote st plan.desiredName)
      plan.changes with
  | error e => rw [hA] at h; cases h
  | ok p =>
    obtain ⟨st3, cs⟩ := p
    rw [hA] at h
    injection h with h1
    injection h1 with ha hb
    exact ⟨st3, cs, rfl, ha.symm⟩

theorem zone_records_miss (remote : Remote) (st : ProviderState) (zoneName : String)
    (zs : Dict (Option String))
    (hz : st.zones = some zs)
    (hm : (dget st.zone_records zoneName).isNone = true) :
    zone_records remote st zoneName
      = (if truthy ((dget zs zoneName).getD none)
         then freshFetch remote st zoneName ((dget zs zoneName).getD none)
         else ([], st, [])) := by
  simp only [zone_records, fetchAndStore, freshFetch,
    zonesProp_cached remote st zs hz, hm, if_true, List.nil_append, List.append_nil]

/-- C6: for every apply invocation that runs to completion, the cached
record-set snapshot for the plan's zone is unconditionally removed from the
per-zone cache, and the next `zone_records` read for that zone goes back to
the remote service (for a truthy zone id it re-fetches every page from the
remote, issuing one list call per page, instead of serving any pre-apply
cache). -/
theorem apply_invalidates_cache (remote : Remote) (st : ProviderState) (plan : Plan)
    (st' : ProviderState) (calls : List ApiCall)
    (h : apply_plan remote st plan = .ok (st', calls)) :
    dget st'.zone_records plan.desiredName = none ∧
    ∀ zs', st'.zones = some zs' →
      zone_records remote st' plan.desiredName
        = (if truthy ((dget zs' plan.desiredName).getD none)
           then freshFetch remote st' plan.desiredName
               ((dget zs' plan.desiredName).getD none)
           else ([], st', [])) := by
  obtain ⟨st3, cs, hA, hst⟩ := apply_plan_inv remote st plan st' calls h
  have hmiss : dget st'.zone_records plan.desiredName = none := by
    rw [hst]
    exact dget_dpop _ _
  refine ⟨hmiss, fun zs' hz => ?_⟩
  exact zone_records_miss remote st' plan.desiredName zs' hz (by rw [hmiss]; rfl)

/-- Witness for C6: after the (empty) apply for the known zone
`unit.tests.`, the cache entry is gone and the next read re-fetches from
the remote service. -/
theorem apply_invalidates_cache_witness :
    dget stAfterApply1.zone_records "unit.tests." = none ∧
    zone_records R1 stAfterApply1 "unit.tests."
      = (if truthy ((dget [("unit.tests.", some "z1")] "unit.tests.").getD none)
         then freshFetch R1 stAfterApply1 "unit.tests."
             ((dget [("unit.tests.", some "z1")] "unit.tests.").getD none)
         else ([], stAfterApply1, [])) :=
  ⟨(apply_invalidates_cache R1 initialState plan1 stAfterApply1 [ApiCall.listZones]
      rfl).1,
   (apply_invalidates_cache R1 initialState plan1 stAfterApply1 [ApiCall.listZones]
      rfl).2 [("unit.tests.", some "z1")] rfl⟩

/- Claim C10: apply on an unknown zone stores a persistent falsy zone id. -/

theorem applyInitState_zones (remote : Remote) (st : ProviderState) (name : String)
    (h1 : dget (zonesProp remote st).1 name = none) :
    applyInitState remote st name
      = { (zonesProp remote st).2.1 with
          zones := some (dinsert (zonesProp remote st).1 name none)
          zone_records :=
            (dinsert (zonesProp remote st).2.1.zone_records name []) } := by
  simp only [applyInitState, h1, Option.isNone_none, if_true, Option.getD_none]

/-- C10: if `apply` runs for a zone name absent from the zone inventory, it
stores the falsy `self.zones.get(name, False)` under that name; the falsy
id persists after the apply, the zone's cache entry is popped, and every
subsequent `zone_records`/`populate` call for the zone returns an empty
record list, issues no API call at all (in particular it never consults the
remote zone inventory again), and leaves the state unchanged. -/
theorem apply_unknown_zone_persists_falsy (remote : Remote) (st : ProviderState)
    (plan : Plan) (hn : String → String) (st' : ProviderState) (calls : List ApiCall)
    (h1 : dget (zonesProp remote st).1 plan.desiredName = none)
    (h2 : apply_plan remote st plan = .ok (st', calls)) :
    dget ((zonesProp remote st').1) plan.desiredName = some none ∧
    dget st'.zone_records plan.desiredName = none ∧
    zone_records remote st' plan.desiredName = ([], st', []) ∧
    populate remote st' hn plan.desiredName = .ok ([], st', []) := by
  obtain ⟨st3, cs, hA, hst⟩ := apply_plan_inv remote st plan st' calls h2
  have hinit : (applyInitState remote st plan.desiredName).zones
      = some (dinsert (zonesProp remote st).1 plan.desiredName none) := by
    rw [applyInitState_zones remote st plan.desiredName h1]
  have hz3 : st3.zones
      = some (dinsert (zonesProp remote st).1 plan.desiredName none) :=
    applyChanges_zones remote _ plan.changes _ st3 cs hinit hA
  have hzf : st'.zones
      = some (dinsert (zonesProp remote st).1 plan.desiredName none) := by
    rw [hst]
    exact hz3
  have hmiss : dget st'.zone_records plan.desiredName = none := by
    rw [hst]
    exact dget_dpop _ _
  have hzput : dget (dinsert (zonesProp remote st).1 plan.desiredName none)
      plan.desiredName = some none := dget_dinsert_self _ _ _
  have hzp : zonesProp remote st'
      = (dinsert (zonesProp remote st).1 plan.desiredName none, st', []) :=
    zonesProp_cached remote st' _ hzf
  have hzr : zone_records remote st' plan.desiredName = ([], st', []) := by
    rw [zone_records_miss remote st' plan.desiredName _ hzf (by rw [hmiss]; rfl)]
    rw [hzput]
    rfl
  refine ⟨?_, hmiss, hzr, ?_⟩
  · rw [hzp]
    exact hzput
  · show (match populateFromListing hn (zone_records remote st' plan.desiredName).1 with
      | Except.error e => Except.error e
      | Except.ok out => Except.ok (out, (zone_records remote st' plan.desiredName).2.1,
          (zone_records remote st' plan.desiredName).2.2)) = .ok ([], st', [])
    rw [hzr]
    rfl

/-- Witness for C10: after the (empty) apply for the unknown zone
`ghost.tests.`, the inventory maps it to the falsy id and the next read
returns no records with no API call. -/
theorem apply_unknown_zone_persists_falsy_witness :
    dget ((zonesProp R1 stGhost).1) "ghost.tests." = some none ∧
    zone_records R1 stGhost "ghost.tests." = ([], stGhost, []) :=
  ⟨(apply_unknown_zone_persists_falsy R1 initialState planGhost (fun s => s) stGhost
      [ApiCall.listZones] rfl rfl).1,
   (apply_unknown_zone_persists_falsy R1 initialState planGhost (fun s => s) stGhost
      [ApiCall.listZones] rfl rfl).2.2.1⟩
